import Mathlib

/-!
# Verification of the referendum pipeline (`pandas_questions.py`)

Shallow embedding of the pandas pipeline in `src/pandas_questions.py`:

* `merge_regions_and_departments` (lines 32-47),
* `merge_referendum_and_areas` (lines 50-83),
* `compute_referendum_result_by_regions` (lines 86-100),
* `plot_referendum_map` (lines 103-124).

A `pandas.DataFrame` is embedded as a Lean list of typed rows carrying the
columns the pipeline reads or writes; where a function reassigns column
labels or adds columns to its *caller's* frame (an in-place effect in
pandas), the embedded function returns the post-state of that argument
alongside its result, so mutation claims are statements about the returned
post-state.  `pd.merge(..., how='left')` keeps every left row, pairing it
with every matching right row (in right-frame order) or one all-NaN-right
row when there is no match; `how='inner'` (the default used at the
geometry step) keeps only matching pairs.  NaN cells of string columns are
`Option.none`.  Vote counts are `ℤ` (pandas int64 at this data scale),
and float division follows numpy: `x / 0` is `inf`/`-inf`/`NaN` depending
on the sign of `x`, never an exception.
-/

namespace PandasQuestions

/-! ## Python string/integer primitives

`str.isnumeric`, `int(str)` (`astype('int')`) and `str(int)`
(`astype('str')`), restricted to ASCII decimal strings with an optional
sign — the only shapes a department-code column can hold. -/

/-- The ASCII digit character for `n < 10`. -/
def digitChar (n : ℕ) : Char := Char.ofNat (48 + n)

/-- Numeric value of an ASCII digit character, `none` otherwise. -/
def digitVal (c : Char) : Option ℕ :=
  if c.isDigit then some (c.toNat - 48) else none

/-- Left-to-right accumulation of decimal digits; `none` on any non-digit. -/
def parseDigitsAux : List Char → ℕ → Option ℕ
  | [], acc => some acc
  | c :: cs, acc =>
    match digitVal c with
    | none => none
    | some d => parseDigitsAux cs (acc * 10 + d)

/-- Value of a non-empty all-digit character list; `none` otherwise. -/
def parseDigits (l : List Char) : Option ℕ :=
  if l.isEmpty then none else parseDigitsAux l 0

/-- Python `str.isnumeric()` on the code strings this pipeline sees:
non-empty and all decimal digits (used by line 59 through `.str`). -/
def pyIsNumeric (s : String) : Bool :=
  !s.data.isEmpty && s.data.all Char.isDigit

/-- Python `int(s)` as invoked by `astype('int')` (line 72-73): optional
sign followed by decimal digits, `none` when the conversion raises. -/
def pyInt (s : String) : Option ℤ :=
  if s.data.head? = some '-' then
    match parseDigits s.data.tail with
    | none => none
    | some v => some (-(v : ℤ))
  else if s.data.head? = some '+' then
    match parseDigits s.data.tail with
    | none => none
    | some v => some ((v : ℤ))
  else
    match parseDigits s.data with
    | none => none
    | some v => some ((v : ℤ))

/-- Big-endian decimal digits of `n`; the fuel argument (any bound `> n`)
makes the recursion structural. -/
def toDecimalAux : ℕ → ℕ → List Char
  | 0, _ => []
  | fuel + 1, n =>
    if n < 10 then [digitChar n]
    else toDecimalAux fuel (n / 10) ++ [digitChar (n % 10)]

/-- Python `str(n)` for an integer, as produced by `astype('str')`
(line 74): decimal digits without leading zeros, `-`-prefixed when
negative. -/
def pyStr (n : ℤ) : String :=
  if n < 0 then "-" ++ ⟨toDecimalAux (n.natAbs + 1) n.natAbs⟩
  else ⟨toDecimalAux (n.natAbs + 1) n.natAbs⟩

/-! ## Frames and rows -/

/-- A raw frame with its column labels, for the two CSV tables whose
column labels `merge_regions_and_departments` overwrites (lines 39-40).
Each row lists its cells in column order. -/
structure RawFrame where
  columns : List String
  rows : List (List String)
deriving DecidableEq

/-- A row of the merged regions/departments table (line 41-45): region
code and name from the left (regions) side, department code and name
`none` when a region row found no matching department. -/
structure RegDepRow where
  code_reg : String
  name_reg : String
  code_dep : Option String
  name_dep : Option String
deriving DecidableEq

/-- A row of the `regions_and_departments` frame as consumed by
`merge_referendum_and_areas` (all four columns present). -/
structure AreaRow where
  code_reg : String
  name_reg : String
  code_dep : String
  name_dep : String
deriving DecidableEq

/-- A row of the referendum frame: the `Department code` column, the five
vote-count columns, and the `code_dep` column that line 58 writes into the
caller's frame (`none` models the column being absent).  The remaining CSV
columns (department/town names, town code) are never read by the claims
under verification and are omitted. -/
structure RefRow where
  dep_code : String
  registered : ℤ
  abstentions : ℤ
  nulls : ℤ
  choiceA : ℤ
  choiceB : ℤ
  code_dep : Option String := none
deriving DecidableEq

/-- A row of the merged referendum/areas table (line 80-81): referendum
columns, the join key `code_dep`, and the area columns, `none` when the
left join found no match. -/
structure RefAreaRow where
  dep_code : String
  registered : ℤ
  abstentions : ℤ
  nulls : ℤ
  choiceA : ℤ
  choiceB : ℤ
  code_dep : String
  code_reg : Option String
  name_reg : Option String
  name_dep : Option String
deriving DecidableEq

/-- A numpy/pandas floating-point result: a finite value, a signed
infinity, or NaN.  Finite values are exact rationals; the claims checked
here never depend on rounding. -/
inductive EF where
  | val : ℚ → EF
  | posInf : EF
  | negInf : EF
  | nan : EF
deriving DecidableEq

/-- numpy elementwise division: division by zero yields `NaN` for a zero
numerator and a signed infinity otherwise, never an exception. -/
def efDiv (a b : ℚ) : EF :=
  if b = 0 then (if a = 0 then EF.nan else if 0 < a then EF.posInf else EF.negInf)
  else EF.val (a / b)

/-- A row of the aggregated result table returned by
`compute_referendum_result_by_regions` (lines 99-100 select exactly these
columns; the row's list position is its `reset_index` integer label).
`nom` and `ratio` are the columns `plot_referendum_map` later writes into
this same frame (lines 113-120); `none` models them being absent. -/
structure ResultRow where
  name_reg : String
  registered : ℤ
  abstentions : ℤ
  nulls : ℤ
  choiceA : ℤ
  choiceB : ℤ
  nom : Option String := none
  ratio : Option EF := none
deriving DecidableEq

/-- The column labels selected at lines 99-100, in order. -/
def resultColumns : List String :=
  ["name_reg", "Registered", "Abstentions", "Null", "Choice A", "Choice B"]

/-- A feature of `data/regions.geojson` as read by line 112: its `nom`
property and its geometry (kept opaque as a string payload). -/
structure GeoRow where
  nom : String
  geometry : String
deriving DecidableEq

/-- A row of the `to_plot` GeoDataFrame built at lines 121-122: the merge
of an aggregated-result row with the geometry row sharing its `nom`. -/
structure PlotRow where
  name_reg : String
  registered : ℤ
  abstentions : ℤ
  nulls : ℤ
  choiceA : ℤ
  choiceB : ℤ
  nom : String
  ratio : EF
  geometry : String
deriving DecidableEq

/-! ## `merge_regions_and_departments` (lines 32-47) -/

/-- The left merge at lines 41-45: regions (already projected to
`code_reg`, `name_reg`) is the LEFT table, departments the right; each
region row pairs with every department row sharing its `code_reg`, or
with NaN department fields when none does. -/
def mergeRegDep (regs : List (String × String))
    (deps : List (String × String × String)) : List RegDepRow :=
  regs.flatMap (fun rg =>
    let ms := deps.filter (fun d => d.1 == rg.1)
    if ms.isEmpty then [⟨rg.1, rg.2, none, none⟩]
    else ms.map (fun d => ⟨rg.1, rg.2, some d.2.1, some d.2.2⟩))

/-- Lines 32-47.  Both column-label assignments (lines 39-40) act on the
caller's frames, so the function returns the two post-state frames
together with the merged table.  After the renames, `code_reg`/`name_reg`
are columns 1 and 2 of regions and `code_reg`/`code_dep`/`name_dep` are
columns 1, 2, 3 of departments (pandas keeps one cell per column; `getD`
with `""` is only a totalizer). -/
def merge_regions_and_departments (regions departments : RawFrame) :
    RawFrame × RawFrame × List RegDepRow :=
  let regions2 : RawFrame :=
    { regions with columns := ["id", "code_reg", "name_reg", "slug"] }
  let departments2 : RawFrame :=
    { departments with columns := ["id", "code_reg", "code_dep", "name_dep", "slug"] }
  let regs := regions2.rows.map (fun row => (row.getD 1 "", row.getD 2 ""))
  let deps := departments2.rows.map
    (fun row => (row.getD 1 "", row.getD 2 "", row.getD 3 ""))
  (regions2, departments2, mergeRegDep regs deps)

/-! ## `merge_referendum_and_areas` (lines 50-83) -/

/-- Whether an area row belongs to the Corsica partition (lines 63-68). -/
def isCorsica (a : AreaRow) : Bool :=
  a.code_dep == "2A" || a.code_dep == "2B"

/-- `astype('int')` over a whole column (line 72): every code must
convert, otherwise pandas raises (`none`). -/
def parseAll : List AreaRow → Option (List (AreaRow × ℤ))
  | [] => some []
  | a :: as =>
    match pyInt a.code_dep, parseAll as with
    | some n, some rest => some ((a, n) :: rest)
    | _, _ => none

/-- Lines 62-77: split `regions_and_departments` into Corsica and the
rest; on the rest, drop codes whose integer value is `≥ 100` (line 72)
and round-trip the survivors through `int` and back to `str` (lines
73-74); re-concatenate (line 77).  `none` when `astype('int')` raises. -/
def transformAreas (areas : List AreaRow) : Option (List AreaRow) :=
  let corsica := areas.filter isCorsica
  let notCorsica := areas.filter (fun a => !isCorsica a)
  match parseAll notCorsica with
  | none => none
  | some pairs =>
    let kept := pairs.filter (fun p => p.2 < 100)
    let reformatted := kept.map (fun p => { p.1 with code_dep := pyStr p.2 })
    some (reformatted ++ corsica)

/-- The row filter of lines 59-60 on the `code_dep` column written at
line 58: keep purely numeric codes and the two Corsica codes. -/
def refKeep (r : RefRow) : Bool :=
  match r.code_dep with
  | some c => pyIsNumeric c || c == "2A" || c == "2B"
  | none => false

/-- The left merge of line 80-81 for one kept referendum row: all
matching area rows, or one row with NaN area fields. -/
def refAreaRows (areas2 : List AreaRow) (r : RefRow) : List RefAreaRow :=
  let key := r.code_dep.getD r.dep_code
  let ms := areas2.filter (fun a => a.code_dep == key)
  if ms.isEmpty then
    [⟨r.dep_code, r.registered, r.abstentions, r.nulls, r.choiceA, r.choiceB,
      key, none, none, none⟩]
  else
    ms.map (fun a =>
      ⟨r.dep_code, r.registered, r.abstentions, r.nulls, r.choiceA, r.choiceB,
        key, some a.code_reg, some a.name_reg, some a.name_dep⟩)

/-- Lines 50-83.  Line 58 writes the `code_dep` column into the caller's
referendum frame before anything can raise, so the post-state of that
argument is returned in both outcomes; the second component is `none`
when the `astype('int')` of line 72 raises. -/
def merge_referendum_and_areas (referendum : List RefRow)
    (areas : List AreaRow) : List RefRow × Option (List RefAreaRow) :=
  let referendum1 := referendum.map (fun r => { r with code_dep := some r.dep_code })
  let filtered := referendum1.filter refKeep
  match transformAreas areas with
  | none => (referendum1, none)
  | some areas2 => (referendum1, some (filtered.flatMap (refAreaRows areas2)))

/-! ## `compute_referendum_result_by_regions` (lines 86-100) -/

/-- The groupby key of line 94: `none` when either key cell is NaN (such
rows are dropped by pandas `groupby`). -/
def keyOf (r : RefAreaRow) : Option (String × String) :=
  match r.code_reg, r.name_reg with
  | some c, some n => some (c, n)
  | _, _ => none

/-- Lexicographic order on the groupby keys (pandas sorts group keys). -/
def keyLe (p q : String × String) : Bool :=
  decide (p.1 < q.1) || (p.1 == q.1 && decide (p.2 ≤ q.2))

/-- Insertion into a key list sorted by `keyLe`. -/
def insSorted (p : String × String) :
    List (String × String) → List (String × String)
  | [] => [p]
  | q :: l => if keyLe p q then p :: q :: l else q :: insSorted p l

/-- Insertion sort by `keyLe`. -/
def sortKeys (l : List (String × String)) : List (String × String) :=
  l.foldr insSorted []

/-- Lines 86-100: group by `(code_reg, name_reg)` (rows with a NaN key
dropped, keys sorted), sum each vote-count column per group
(`aggregate(np.sum)`), `reset_index`, and select `resultColumns` — which
keeps `name_reg` but drops `code_reg`, leaving the default `0..n-1`
integer index.  The output list position is that integer index. -/
def compute_referendum_result_by_regions (rows : List RefAreaRow) :
    List ResultRow :=
  let keys := sortKeys ((rows.filterMap keyOf).dedup)
  keys.map (fun k =>
    let grp := rows.filter (fun r => keyOf r == some k)
    { name_reg := k.2,
      registered := (grp.map RefAreaRow.registered).sum,
      abstentions := (grp.map RefAreaRow.abstentions).sum,
      nulls := (grp.map RefAreaRow.nulls).sum,
      choiceA := (grp.map RefAreaRow.choiceA).sum,
      choiceB := (grp.map RefAreaRow.choiceB).sum })

/-! ## `plot_referendum_map` (lines 103-124) -/

/-- Lines 113-120: the two column writes into the caller's frame — `nom`
duplicates `name_reg`, `ratio` is Choice A over expressed ballots. -/
def assignNomRatio (r : ResultRow) : ResultRow :=
  { r with
    nom := some r.name_reg,
    ratio := some (efDiv (r.choiceA : ℚ) ((r.choiceA : ℚ) + (r.choiceB : ℚ))) }

/-- One merged row of line 121-122; the `ratio` cell was just written by
`assignNomRatio`, so the `getD` default is never reached. -/
def mkPlotRow (r : ResultRow) (g : GeoRow) : PlotRow :=
  ⟨r.name_reg, r.registered, r.abstentions, r.nulls, r.choiceA, r.choiceB,
    g.nom, r.ratio.getD EF.nan, g.geometry⟩

/-- Lines 103-124.  The geometry file read at line 112 enters as the
`geo` argument.  Lines 113-120 mutate the caller's frame, so its
post-state is the first component; the second is `to_plot`, the INNER
merge (pandas default `how`) of the mutated results with the geometries
on `nom`.  The `.plot` call only renders and changes no table. -/
def plot_referendum_map (res : List ResultRow) (geo : List GeoRow) :
    List ResultRow × List PlotRow :=
  let res1 := res.map assignNomRatio
  (res1, res1.flatMap (fun r =>
    (geo.filter (fun g => some g.nom == r.nom)).map (mkPlotRow r)))

/-! ## Concrete instances

Small frames with the shapes of the real CSV/GeoJSON data, used to
evaluate the pipeline at specific inputs. -/

/-- A regions frame with its CSV column labels and a single region. -/
def regionsOne : RawFrame :=
  ⟨["id", "code", "name", "slug"],
   [["1", "84", "Auvergne-Rhone-Alpes", "auvergne-rhone-alpes"]]⟩

/-- A departments frame with the CSV column labels and no rows. -/
def departmentsEmpty : RawFrame :=
  ⟨["id", "region_code", "code", "name", "slug"], []⟩

/-- A departments frame with one department owned by region 84. -/
def departmentsOne : RawFrame :=
  ⟨["id", "region_code", "code", "name", "slug"],
   [["101", "84", "01", "Ain", "ain"]]⟩

/-- A referendum row for overseas department 971 (numeric, `≥ 100`). -/
def refRow971 : RefRow := ⟨"971", 100, 10, 2, 50, 38, none⟩

/-- A referendum row for department 01, numeric with a leading zero. -/
def refRow01 : RefRow := ⟨"01", 100, 10, 2, 50, 38, none⟩

/-- A referendum row with a plain numeric department code. -/
def refRow1 : RefRow := ⟨"1", 60, 6, 1, 30, 20, none⟩

/-- A referendum row for Corsica. -/
def refRow2A : RefRow := ⟨"2A", 40, 4, 1, 20, 18, none⟩

/-- A referendum row with a non-numeric, non-Corsica code (as the real
data has for French residents abroad). -/
def refRowZZ : RefRow := ⟨"ZZ", 10, 1, 0, 5, 4, none⟩

/-- Area rows: a zero-padded mainland code, Corsica, and an overseas
department. -/
def areaRow01 : AreaRow := ⟨"84", "Auvergne-Rhone-Alpes", "01", "Ain"⟩

def areaRow2A : AreaRow := ⟨"94", "Corse", "2A", "Corse-du-Sud"⟩

def areaRow971 : AreaRow := ⟨"1", "Guadeloupe", "971", "Guadeloupe"⟩

def areasW : List AreaRow := [areaRow01, areaRow2A, areaRow971]

/-- `transformAreas areasW`: the 01 code is stripped to 1, the overseas
row is dropped, Corsica is appended unchanged. -/
def areasW2 : List AreaRow :=
  [⟨"84", "Auvergne-Rhone-Alpes", "1", "Ain"⟩, areaRow2A]

/-- The unmatched output row produced for `refRow971`. -/
def outRow971 : RefAreaRow := ⟨"971", 100, 10, 2, 50, 38, "971", none, none, none⟩

/-- The unmatched output row produced for `refRow01`. -/
def outRow01 : RefAreaRow := ⟨"01", 100, 10, 2, 50, 38, "01", none, none, none⟩

/-- The merge output for `[refRow1, refRow2A, refRowZZ]` against
`areasW`: the numeric and Corsica rows joined, the ZZ row dropped. -/
def outW5 : List RefAreaRow :=
  [⟨"1", 60, 6, 1, 30, 20, "1", some "84", some "Auvergne-Rhone-Alpes", some "Ain"⟩,
   ⟨"2A", 40, 4, 1, 20, 18, "2A", some "94", some "Corse", some "Corse-du-Sud"⟩]

/-- A merged referendum-area table with two departments of one region. -/
def refAreaRowsW : List RefAreaRow :=
  [⟨"1", 60, 6, 1, 30, 20, "1", some "84", some "Auvergne-Rhone-Alpes", some "Ain"⟩,
   ⟨"2", 40, 4, 1, 20, 18, "2", some "84", some "Auvergne-Rhone-Alpes", some "Aisne"⟩]

/-- Aggregated results: one region present in the geometry file and one
absent from it. -/
def resRowsW : List ResultRow :=
  [⟨"Auvergne-Rhone-Alpes", 100, 10, 2, 50, 38, none, none⟩,
   ⟨"Nowhere", 10, 1, 0, 0, 0, none, none⟩]

def geoRowsW : List GeoRow := [⟨"Auvergne-Rhone-Alpes", "geomA"⟩]

/-- The merged plot row for the matching region of `resRowsW`. -/
def plotRowW : PlotRow :=
  mkPlotRow (assignNomRatio ⟨"Auvergne-Rhone-Alpes", 100, 10, 2, 50, 38, none, none⟩)
    ⟨"Auvergne-Rhone-Alpes", "geomA"⟩

/-- An aggregated result with zero expressed ballots. -/
def resRowsZero : List ResultRow := [⟨"Zero", 5, 1, 0, 0, 0, none, none⟩]

def geoRowsZero : List GeoRow := [⟨"Zero", "geomZ"⟩]

/-- Its plot row: the ratio is `0 / 0`, i.e. NaN. -/
def plotRowZero : PlotRow :=
  mkPlotRow (assignNomRatio ⟨"Zero", 5, 1, 0, 0, 0, none, none⟩) ⟨"Zero", "geomZ"⟩

/-! ## Lemmas about the Python string/integer primitives -/

theorem digitVal_digitChar {n : ℕ} (h : n < 10) : digitVal (digitChar n) = some n := by
  interval_cases n <;> decide

theorem digitChar_isDigit {n : ℕ} (h : n < 10) : (digitChar n).isDigit = true := by
  interval_cases n <;> decide

theorem digitChar_ne_zero {n : ℕ} (h1 : n < 10) (h2 : 0 < n) : digitChar n ≠ '0' := by
  interval_cases n <;> decide

theorem toDecimalAux_ne_nil : ∀ fuel n, n < fuel → toDecimalAux fuel n ≠ [] := by
  intro fuel
  induction fuel with
  | zero => intro n h; omega
  | succ f ih =>
    intro n h
    by_cases h10 : n < 10 <;> simp [toDecimalAux, h10]

theorem div_ten_lt_fuel {f n : ℕ} (h : n < f + 1) (h10 : ¬n < 10) : n / 10 < f := by
  have : n / 10 < n := Nat.div_lt_self (by omega) (by omega)
  omega

theorem toDecimalAux_all_digits :
    ∀ fuel n, n < fuel → ∀ c ∈ toDecimalAux fuel n, c.isDigit = true := by
  intro fuel
  induction fuel with
  | zero => intro n h; omega
  | succ f ih =>
    intro n h c hc
    by_cases h10 : n < 10
    · simp only [toDecimalAux, if_pos h10, List.mem_singleton] at hc
      exact hc ▸ digitChar_isDigit h10
    · simp only [toDecimalAux, if_neg h10, List.mem_append, List.mem_singleton] at hc
      rcases hc with hc | hc
      · exact ih (n / 10) (div_ten_lt_fuel h h10) c hc
      · exact hc ▸ digitChar_isDigit (Nat.mod_lt _ (by omega))

theorem parseDigitsAux_append (l₁ l₂ : List Char) (acc : ℕ) :
    parseDigitsAux (l₁ ++ l₂) acc =
      (parseDigitsAux l₁ acc).bind (fun v => parseDigitsAux l₂ v) := by
  induction l₁ generalizing acc with
  | nil => simp [parseDigitsAux]
  | cons c cs ih =>
    simp only [List.cons_append, parseDigitsAux]
    cases digitVal c with
    | none => simp
    | some d => simp [ih]

theorem parseDigitsAux_toDecimalAux :
    ∀ fuel n acc, n < fuel →
      parseDigitsAux (toDecimalAux fuel n) acc =
        some (acc * 10 ^ (toDecimalAux fuel n).length + n) := by
  intro fuel
  induction fuel with
  | zero => intro n acc h; omega
  | succ f ih =>
    intro n acc h
    by_cases h10 : n < 10
    · simp [toDecimalAux, if_pos h10, parseDigitsAux, digitVal_digitChar h10]
    · have hd : n / 10 < f := div_ten_lt_fuel h h10
      have hmod : n % 10 < 10 := Nat.mod_lt _ (by omega)
      simp only [toDecimalAux, if_neg h10]
      rw [parseDigitsAux_append, ih (n / 10) acc hd]
      simp only [Option.bind_some, parseDigitsAux, digitVal_digitChar hmod,
        List.length_append, List.length_singleton]
      rw [Option.some_bind, Option.some.injEq]
      have hdm : 10 * (n / 10) + n % 10 = n := Nat.div_add_mod n 10
      calc (acc * 10 ^ (toDecimalAux f (n / 10)).length + n / 10) * 10 + n % 10
          = acc * 10 ^ ((toDecimalAux f (n / 10)).length + 1) + (10 * (n / 10) + n % 10) := by
            rw [pow_succ]; ring
        _ = acc * 10 ^ ((toDecimalAux f (n / 10)).length + 1) + n := by rw [hdm]

theorem parseDigits_toDecimalAux {fuel n : ℕ} (h : n < fuel) :
    parseDigits (toDecimalAux fuel n) = some n := by
  have hne := toDecimalAux_ne_nil fuel n h
  unfold parseDigits
  rw [if_neg (by simpa [List.isEmpty_iff] using hne)]
  simpa using parseDigitsAux_toDecimalAux fuel n 0 h

theorem toDecimalAux_head_ne_zero :
    ∀ fuel n, n < fuel → 0 < n → (toDecimalAux fuel n).head? ≠ some '0' := by
  intro fuel
  induction fuel with
  | zero => intro n h; omega
  | succ f ih =>
    intro n h hpos
    by_cases h10 : n < 10
    · simp only [toDecimalAux, if_pos h10, List.head?_cons, ne_eq, Option.some.injEq]
      exact digitChar_ne_zero h10 hpos
    · have hd : n / 10 < f := div_ten_lt_fuel h h10
      have hdpos : 0 < n / 10 := Nat.div_pos (by omega) (by omega)
      simp only [toDecimalAux, if_neg h10]
      cases hl : toDecimalAux f (n / 10) with
      | nil => exact absurd hl (toDecimalAux_ne_nil f (n / 10) hd)
      | cons a t =>
        have := ih (n / 10) hd hdpos
        rw [hl] at this
        simpa using this

theorem pyStr_zero : pyStr 0 = "0" := by decide

theorem pyStr_data_of_nonneg {n : ℤ} (h : 0 ≤ n) :
    (pyStr n).data = toDecimalAux (n.natAbs + 1) n.natAbs := by
  unfold pyStr
  rw [if_neg (by omega)]

theorem pyStr_data_of_neg {n : ℤ} (h : n < 0) :
    (pyStr n).data = '-' :: toDecimalAux (n.natAbs + 1) n.natAbs := by
  unfold pyStr
  rw [if_pos h]
  simp [String.data_append]

theorem pyInt_pyStr (n : ℤ) : pyInt (pyStr n) = some n := by
  rcases lt_or_le n 0 with hn | hn
  · have hdata := pyStr_data_of_neg hn
    unfold pyInt
    rw [hdata]
    simp only [List.head?_cons, List.tail_cons]
    rw [if_pos trivial, parseDigits_toDecimalAux (Nat.lt_succ_self _)]
    show some (-((n.natAbs : ℕ) : ℤ)) = some n
    congr 1
    omega
  · have hdata := pyStr_data_of_nonneg hn
    cases hl : toDecimalAux (n.natAbs + 1) n.natAbs with
    | nil => exact absurd hl (toDecimalAux_ne_nil _ _ (Nat.lt_succ_self _))
    | cons c cs =>
      have hcdig : c.isDigit = true :=
        toDecimalAux_all_digits _ _ (Nat.lt_succ_self _) c (by rw [hl]; exact List.mem_cons_self c cs)
      have hcm : ¬(some c = some '-') := by
        intro he
        rw [Option.some.injEq] at he
        rw [he] at hcdig
        exact absurd hcdig (by decide)
      have hcp : ¬(some c = some '+') := by
        intro he
        rw [Option.some.injEq] at he
        rw [he] at hcdig
        exact absurd hcdig (by decide)
      unfold pyInt
      rw [hdata, hl]
      simp only [List.head?_cons]
      rw [if_neg hcm, if_neg hcp, ← hl, parseDigits_toDecimalAux (Nat.lt_succ_self _)]
      show some ((n.natAbs : ℤ)) = some n
      congr 1
      omega

theorem pyStr_ne_of_leading_zero {s : String} (h0 : s.data.head? = some '0')
    (hne : s ≠ "0") (n : ℤ) : pyStr n ≠ s := by
  intro he
  rcases lt_or_le n 0 with hn | hn
  · rw [← he, pyStr_data_of_neg hn] at h0
    simp at h0
  · rcases eq_or_lt_of_le hn with hz | hpos
    · exact hne (by rw [← he, ← hz, pyStr_zero])
    · have habs : 0 < n.natAbs := by omega
      rw [← he, pyStr_data_of_nonneg hn] at h0
      exact toDecimalAux_head_ne_zero _ _ (Nat.lt_succ_self _) habs h0

/-! ## Generic list counting lemmas -/

theorem sum_map_add {α : Type} (l : List α) (f g : α → ℕ) :
    (l.map (fun x => f x + g x)).sum = (l.map f).sum + (l.map g).sum := by
  induction l with
  | nil => simp
  | cons x xs ih => simp [ih]; omega

theorem sum_map_ite_one {κ : Type} [DecidableEq κ] (ks : List κ) (a : κ) :
    (ks.map (fun k => if a = k then 1 else 0)).sum = ks.count a := by
  induction ks with
  | nil => simp
  | cons k ks ih =>
    by_cases h : a = k
    · subst h
      simp [List.count_cons, ih]
      omega
    · have h2 : (k == a) = false := beq_eq_false_iff_ne.mpr (Ne.symm h)
      simp [List.count_cons, ih, h, h2]

/-- Partitioning a list by key over a duplicate-free cover of its keys
accounts for every element exactly once. -/
theorem sum_length_filter_eq_length {α κ : Type} [DecidableEq κ] (key : α → κ) :
    ∀ (l : List α) (ks : List κ), ks.Nodup → (∀ d ∈ l, key d ∈ ks) →
      (ks.map (fun k => (l.filter (fun d => key d == k)).length)).sum = l.length := by
  intro l
  induction l with
  | nil => intro ks _ _; simp
  | cons d ds ih =>
    intro ks hnd hcov
    have hsplit : (fun k => (((d :: ds).filter (fun x => key x == k)).length))
        = fun k => (if key d = k then 1 else 0) + ((ds.filter (fun x => key x == k)).length) := by
      funext k
      by_cases h : key d = k
      · simp [List.filter_cons, h]
        omega
      · simp [List.filter_cons, h]
    rw [hsplit, sum_map_add, sum_map_ite_one,
      List.count_eq_one_of_mem hnd (hcov d (List.mem_cons_self d ds)),
      ih ks hnd (fun x hx => hcov x (List.mem_cons_of_mem d hx))]
    simp [Nat.add_comm]

theorem map_ne_self_of_mem {α : Type} {l : List α} {f : α → α} {x : α}
    (hx : x ∈ l) (hfx : f x ≠ x) : l.map f ≠ l := by
  induction l with
  | nil => cases hx
  | cons a t ih =>
    rcases List.mem_cons.mp hx with rfl | hx
    · intro he
      exact hfx (List.cons.inj he).1
    · intro he
      exact ih hx (List.cons.inj he).2

/-! ## Lemmas about `merge_regions_and_departments` -/

theorem merge_regions_and_departments_eq (regions departments : RawFrame) :
    merge_regions_and_departments regions departments =
      ({ regions with columns := ["id", "code_reg", "name_reg", "slug"] },
       { departments with columns := ["id", "code_reg", "code_dep", "name_dep", "slug"] },
       mergeRegDep (regions.rows.map (fun row => (row.getD 1 "", row.getD 2 "")))
         (departments.rows.map (fun row => (row.getD 1 "", row.getD 2 "", row.getD 3 "")))) :=
  rfl

/-- Cardinality of the left merge of lines 41-45: when region codes are
duplicate-free, every department's region code occurs among them, and
every region has at least one department, the output has exactly one row
per department row. -/
theorem length_mergeRegDep (regs : List (String × String))
    (deps : List (String × String × String))
    (hnd : (regs.map Prod.fst).Nodup)
    (hcov : ∀ d ∈ deps, d.1 ∈ regs.map Prod.fst)
    (hne : ∀ rg ∈ regs, ∃ d ∈ deps, d.1 = rg.1) :
    (mergeRegDep regs deps).length = deps.length := by
  unfold mergeRegDep
  rw [List.length_flatMap]
  have hcongr : ∀ rg ∈ regs,
      (List.length ∘ fun rg : String × String =>
        let ms := deps.filter (fun d => d.1 == rg.1)
        if ms.isEmpty then ([⟨rg.1, rg.2, none, none⟩] : List RegDepRow)
        else ms.map (fun d => ⟨rg.1, rg.2, some d.2.1, some d.2.2⟩)) rg
      = (deps.filter (fun d => d.1 == rg.1)).length := by
    intro rg hrg
    obtain ⟨d, hd, hdk⟩ := hne rg hrg
    have hdm : d ∈ deps.filter (fun d => d.1 == rg.1) := by
      rw [List.mem_filter]
      exact ⟨hd, by simpa using hdk⟩
    have hnemp : (deps.filter (fun d => d.1 == rg.1)).isEmpty = false := by
      rcases he : deps.filter (fun d => d.1 == rg.1) with _ | ⟨x, xs⟩
      · rw [he] at hdm; cases hdm
      · rw [he]; rfl
    simp only [Function.comp_apply, hnemp]
    simp [List.length_map]
  rw [List.map_congr_left hcongr]
  have hmm : regs.map (fun rg => (deps.filter (fun d => d.1 == rg.1)).length)
      = (regs.map Prod.fst).map (fun k => (deps.filter (fun d => d.1 == k)).length) := by
    rw [List.map_map]
    rfl
  rw [hmm]
  exact sum_length_filter_eq_length Prod.fst deps (regs.map Prod.fst) hnd hcov

/-! ## Lemmas about `transformAreas` -/

theorem parseAll_forward :
    ∀ {l : List AreaRow} {pairs : List (AreaRow × ℤ)}, parseAll l = some pairs →
      ∀ a ∈ l, ∃ n, pyInt a.code_dep = some n ∧ (a, n) ∈ pairs := by
  intro l
  induction l with
  | nil => intro pairs _ a ha; cases ha
  | cons x xs ih =>
    intro pairs hp a ha
    unfold parseAll at hp
    cases hx : pyInt x.code_dep with
    | none => rw [hx] at hp; cases hp
    | some n =>
      rw [hx] at hp
      cases hrest : parseAll xs with
      | none => rw [hrest] at hp; cases hp
      | some rest =>
        rw [hrest] at hp
        cases hp
        rcases List.mem_cons.mp ha with rfl | ha
        · exact ⟨n, hx, List.mem_cons_self _ _⟩
        · obtain ⟨m, hm1, hm2⟩ := ih hrest a ha
          exact ⟨m, hm1, List.mem_cons_of_mem _ hm2⟩

theorem parseAll_backward :
    ∀ {l : List AreaRow} {pairs : List (AreaRow × ℤ)}, parseAll l = some pairs →
      ∀ p ∈ pairs, p.1 ∈ l ∧ pyInt p.1.code_dep = some p.2 := by
  intro l
  induction l with
  | nil =>
    intro pairs hp p hmem
    unfold parseAll at hp
    cases hp
    cases hmem
  | cons x xs ih =>
    intro pairs hp p hmem
    unfold parseAll at hp
    cases hx : pyInt x.code_dep with
    | none => rw [hx] at hp; cases hp
    | some n =>
      rw [hx] at hp
      cases hrest : parseAll xs with
      | none => rw [hrest] at hp; cases hp
      | some rest =>
        rw [hrest] at hp
        cases hp
        rcases List.mem_cons.mp hmem with rfl | hmem
        · exact ⟨List.mem_cons_self _ _, hx⟩
        · obtain ⟨h1, h2⟩ := ih hrest p hmem
          exact ⟨List.mem_cons_of_mem _ h1, h2⟩

theorem transformAreas_eq (areas : List AreaRow) :
    transformAreas areas =
      match parseAll (areas.filter (fun a => !isCorsica a)) with
      | none => none
      | some pairs =>
        some (((pairs.filter (fun p => p.2 < 100)).map
          (fun p => { p.1 with code_dep := pyStr p.2 })) ++ areas.filter isCorsica) :=
  rfl

theorem transformAreas_mem_corsica {areas out : List AreaRow} {a : AreaRow}
    (h : transformAreas areas = some out) (ha : a ∈ areas)
    (hc : isCorsica a = true) : a ∈ out := by
  rw [transformAreas_eq] at h
  cases hp : parseAll (areas.filter (fun a => !isCorsica a)) with
  | none => rw [hp] at h; cases h
  | some pairs =>
    rw [hp] at h
    cases h
    exact List.mem_append_right _ (List.mem_filter.mpr ⟨ha, hc⟩)

theorem transformAreas_mem_reformat {areas out : List AreaRow} {a : AreaRow} {n : ℤ}
    (h : transformAreas areas = some out) (ha : a ∈ areas)
    (hc : isCorsica a = false) (hn : pyInt a.code_dep = some n) (hlt : n < 100) :
    { a with code_dep := pyStr n } ∈ out := by
  rw [transformAreas_eq] at h
  cases hp : parseAll (areas.filter (fun a => !isCorsica a)) with
  | none => rw [hp] at h; cases h
  | some pairs =>
    rw [hp] at h
    cases h
    refine List.mem_append_left _ ?_
    have hmem : a ∈ areas.filter (fun a => !isCorsica a) :=
      List.mem_filter.mpr ⟨ha, by simp [hc]⟩
    obtain ⟨m, hm1, hm2⟩ := parseAll_forward hp a hmem
    rw [hn] at hm1
    cases hm1
    refine List.mem_map.mpr ⟨(a, n), ?_, rfl⟩
    exact List.mem_filter.mpr ⟨hm2, by simpa using hlt⟩

/-- Every row of the transformed area table is either a Corsica row of
the input, or an input row with parsed code `< 100` whose code was
round-tripped through `int` and `str`. -/
theorem transformAreas_mem_elim {areas out : List AreaRow} {b : AreaRow}
    (h : transformAreas areas = some out) (hb : b ∈ out) :
    (b ∈ areas ∧ isCorsica b = true) ∨
      ∃ a n, a ∈ areas ∧ isCorsica a = false ∧ pyInt a.code_dep = some n ∧
        n < 100 ∧ b = { a with code_dep := pyStr n } := by
  rw [transformAreas_eq] at h
  cases hp : parseAll (areas.filter (fun a => !isCorsica a)) with
  | none => rw [hp] at h; cases h
  | some pairs =>
    rw [hp] at h
    cases h
    rcases List.mem_append.mp hb with hb | hb
    · obtain ⟨q, hq, hqe⟩ := List.mem_map.mp hb
      have hq2 := List.mem_filter.mp hq
      obtain ⟨hq3, hq4⟩ := parseAll_backward hp q hq2.1
      have hq5 := List.mem_filter.mp hq3
      refine Or.inr ⟨q.1, q.2, hq5.1, by simpa using hq5.2, hq4, by simpa using hq2.2, hqe.symm⟩
    · have hb2 := List.mem_filter.mp hb
      exact Or.inl ⟨hb2.1, hb2.2⟩

/-- The Corsica partition test in terms of the code string. -/
theorem isCorsica_iff (a : AreaRow) :
    isCorsica a = true ↔ a.code_dep = "2A" ∨ a.code_dep = "2B" := by
  unfold isCorsica
  simp

/-- Codes surviving `transformAreas`: Corsica codes, or the
`str(int(...))` image of a parsed code `< 100`. -/
theorem transformAreas_codes {areas out : List AreaRow} {b : AreaRow}
    (h : transformAreas areas = some out) (hb : b ∈ out) :
    b.code_dep = "2A" ∨ b.code_dep = "2B" ∨ ∃ n : ℤ, n < 100 ∧ b.code_dep = pyStr n := by
  rcases transformAreas_mem_elim h hb with ⟨_, hc⟩ | ⟨a, n, _, _, _, hn, rfl⟩
  · rcases (isCorsica_iff b).mp hc with h2 | h2
    · exact Or.inl h2
    · exact Or.inr (Or.inl h2)
  · exact Or.inr (Or.inr ⟨n, hn, rfl⟩)

/-! ## Lemmas about `merge_referendum_and_areas` -/

theorem merge_referendum_and_areas_eq (referendum : List RefRow) (areas : List AreaRow) :
    merge_referendum_and_areas referendum areas =
      match transformAreas areas with
      | none => (referendum.map (fun r => { r with code_dep := some r.dep_code }), none)
      | some areas2 =>
        (referendum.map (fun r => { r with code_dep := some r.dep_code }),
         some (((referendum.map (fun r => { r with code_dep := some r.dep_code })).filter
           refKeep).flatMap (refAreaRows areas2))) :=
  rfl

/-- The caller-visible post-state of the referendum argument: line 58 ran
whether or not line 72 later raises. -/
theorem merge_referendum_and_areas_post (referendum : List RefRow) (areas : List AreaRow) :
    (merge_referendum_and_areas referendum areas).1
      = referendum.map (fun r => { r with code_dep := some r.dep_code }) := by
  rw [merge_referendum_and_areas_eq]
  cases transformAreas areas <;> rfl

theorem merge_referendum_and_areas_some {referendum : List RefRow} {areas areas2 : List AreaRow}
    (ht : transformAreas areas = some areas2) :
    (merge_referendum_and_areas referendum areas).2 =
      some (((referendum.map (fun r => { r with code_dep := some r.dep_code })).filter
        refKeep).flatMap (refAreaRows areas2)) := by
  rw [merge_referendum_and_areas_eq, ht]

theorem refAreaRows_eq (areas2 : List AreaRow) (r : RefRow) :
    refAreaRows areas2 r =
      if (areas2.filter (fun a => a.code_dep == r.code_dep.getD r.dep_code)).isEmpty then
        [⟨r.dep_code, r.registered, r.abstentions, r.nulls, r.choiceA, r.choiceB,
          r.code_dep.getD r.dep_code, none, none, none⟩]
      else
        (areas2.filter (fun a => a.code_dep == r.code_dep.getD r.dep_code)).map (fun a =>
          ⟨r.dep_code, r.registered, r.abstentions, r.nulls, r.choiceA, r.choiceB,
            r.code_dep.getD r.dep_code, some a.code_reg, some a.name_reg, some a.name_dep⟩) :=
  rfl

/-- Left-join semantics: every kept referendum row contributes at least
one output row. -/
theorem refAreaRows_ne_nil (areas2 : List AreaRow) (r : RefRow) :
    refAreaRows areas2 r ≠ [] := by
  rw [refAreaRows_eq]
  split
  · simp
  · rename_i h
    rw [ne_eq, List.map_eq_nil_iff]
    intro he
    rw [he] at h
    exact h rfl

/-- Every row produced for a kept referendum row copies that row's
referendum fields and join key. -/
theorem refAreaRows_fields {areas2 : List AreaRow} {r : RefRow} {p : RefAreaRow}
    (hp : p ∈ refAreaRows areas2 r) :
    p.dep_code = r.dep_code ∧ p.registered = r.registered ∧
    p.abstentions = r.abstentions ∧ p.nulls = r.nulls ∧
    p.choiceA = r.choiceA ∧ p.choiceB = r.choiceB ∧
    p.code_dep = r.code_dep.getD r.dep_code := by
  rw [refAreaRows_eq] at hp
  split at hp
  · rw [List.mem_singleton] at hp
    subst hp
    exact ⟨rfl, rfl, rfl, rfl, rfl, rfl, rfl⟩
  · obtain ⟨a, _, rfl⟩ := List.mem_map.mp hp
    exact ⟨rfl, rfl, rfl, rfl, rfl, rfl, rfl⟩

/-- The all-NaN row emitted when no transformed area code matches the
referendum row's key. -/
theorem refAreaRows_of_no_match {areas2 : List AreaRow} {r : RefRow}
    (h : ∀ a ∈ areas2, a.code_dep ≠ r.code_dep.getD r.dep_code) :
    refAreaRows areas2 r =
      [⟨r.dep_code, r.registered, r.abstentions, r.nulls, r.choiceA, r.choiceB,
        r.code_dep.getD r.dep_code, none, none, none⟩] := by
  rw [refAreaRows_eq]
  have hf : areas2.filter (fun a => a.code_dep == r.code_dep.getD r.dep_code) = [] := by
    rw [List.filter_eq_nil_iff]
    intro a ha
    simpa using h a ha
  rw [hf]
  rfl

/-- The filter of lines 59-60 on the row written at line 58, in terms of
the original row. -/
theorem refKeep_written (r : RefRow) :
    refKeep { r with code_dep := some r.dep_code }
      = (pyIsNumeric r.dep_code || r.dep_code == "2A" || r.dep_code == "2B") :=
  rfl

/-! ## Lemmas about `plot_referendum_map` -/

theorem plot_referendum_map_eq (res : List ResultRow) (geo : List GeoRow) :
    plot_referendum_map res geo =
      (res.map assignNomRatio,
       (res.map assignNomRatio).flatMap (fun r =>
         (geo.filter (fun g => some g.nom == r.nom)).map (mkPlotRow r))) :=
  rfl

/-- Every `to_plot` row arises from a result row and a geometry row whose
`nom` equals that result row's (assigned) `nom`. -/
theorem plot_mem_elim {res : List ResultRow} {geo : List GeoRow} {p : PlotRow}
    (hp : p ∈ (plot_referendum_map res geo).2) :
    ∃ r ∈ res, ∃ g ∈ geo, g.nom = r.name_reg ∧ p = mkPlotRow (assignNomRatio r) g := by
  rw [plot_referendum_map_eq] at hp
  obtain ⟨r1, hr1, hp1⟩ := List.mem_flatMap.mp hp
  obtain ⟨r, hr, rfl⟩ := List.mem_map.mp hr1
  obtain ⟨g, hg, hpg⟩ := List.mem_map.mp hp1
  have hgf := List.mem_filter.mp hg
  refine ⟨r, hr, g, hgf.1, ?_, hpg.symm⟩
  have : some g.nom = (assignNomRatio r).nom := by simpa using hgf.2
  simpa [assignNomRatio] using this

/-! ## Row-level facts about the referendum/area merge -/

theorem pyIsNumeric_ne_corsica {s : String} (h : pyIsNumeric s = true) :
    s ≠ "2A" ∧ s ≠ "2B" := by
  constructor <;> intro he <;> subst he <;> exact absurd h (by decide)

/-- Every output row of the merge descends from a referendum row that
passed the line 59-60 filter, copying its fields and join key. -/
theorem mraa_out_elim {referendum : List RefRow} {areas areas2 : List AreaRow}
    {out : List RefAreaRow} {p : RefAreaRow}
    (ht : transformAreas areas = some areas2)
    (hout : (merge_referendum_and_areas referendum areas).2 = some out)
    (hp : p ∈ out) :
    ∃ r ∈ referendum,
      (pyIsNumeric r.dep_code || r.dep_code == "2A" || r.dep_code == "2B") = true ∧
      p.dep_code = r.dep_code ∧ p.registered = r.registered ∧
      p.abstentions = r.abstentions ∧ p.nulls = r.nulls ∧
      p.choiceA = r.choiceA ∧ p.choiceB = r.choiceB ∧ p.code_dep = r.dep_code := by
  have hbig := @merge_referendum_and_areas_some referendum areas areas2 ht
  rw [hout] at hbig
  injection hbig with hbig
  subst hbig
  obtain ⟨r1, hr1, hpr⟩ := List.mem_flatMap.mp hp
  obtain ⟨hr1m, hr1k⟩ := List.mem_filter.mp hr1
  obtain ⟨r, hr, rfl⟩ := List.mem_map.mp hr1m
  rw [refKeep_written] at hr1k
  have hf := refAreaRows_fields hpr
  exact ⟨r, hr, hr1k, hf.1, hf.2.1, hf.2.2.1, hf.2.2.2.1, hf.2.2.2.2.1,
    hf.2.2.2.2.2.1, hf.2.2.2.2.2.2⟩

/-- Left-join semantics at the row level: every referendum row passing
the filter leaves at least one output row carrying its fields. -/
theorem mraa_kept_row {referendum : List RefRow} {areas areas2 : List AreaRow}
    {out : List RefAreaRow} {r : RefRow}
    (ht : transformAreas areas = some areas2)
    (hout : (merge_referendum_and_areas referendum areas).2 = some out)
    (hr : r ∈ referendum)
    (hkeep : (pyIsNumeric r.dep_code || r.dep_code == "2A" || r.dep_code == "2B") = true) :
    ∃ p ∈ out, p.dep_code = r.dep_code ∧ p.registered = r.registered ∧
      p.abstentions = r.abstentions ∧ p.nulls = r.nulls ∧
      p.choiceA = r.choiceA ∧ p.choiceB = r.choiceB := by
  have hbig := @merge_referendum_and_areas_some referendum areas areas2 ht
  rw [hout] at hbig
  injection hbig with hbig
  subst hbig
  have hr1 : ({ r with code_dep := some r.dep_code } : RefRow)
      ∈ (referendum.map (fun x => { x with code_dep := some x.dep_code })).filter refKeep :=
    List.mem_filter.mpr ⟨List.mem_map.mpr ⟨r, hr, rfl⟩, by rw [refKeep_written]; exact hkeep⟩
  obtain ⟨p, hp⟩ :=
    List.exists_mem_of_ne_nil _ (refAreaRows_ne_nil areas2 { r with code_dep := some r.dep_code })
  have hf := refAreaRows_fields hp
  exact ⟨p, List.mem_flatMap.mpr ⟨_, hr1, hp⟩, hf.1, hf.2.1, hf.2.2.1, hf.2.2.2.1,
    hf.2.2.2.2.1, hf.2.2.2.2.2.1⟩

/-- A kept referendum row whose code matches no transformed area code
produces exactly the all-NaN-area row. -/
theorem mraa_unmatched_row {referendum : List RefRow} {areas areas2 : List AreaRow}
    {out : List RefAreaRow} {r : RefRow}
    (ht : transformAreas areas = some areas2)
    (hout : (merge_referendum_and_areas referendum areas).2 = some out)
    (hr : r ∈ referendum)
    (hkeep : (pyIsNumeric r.dep_code || r.dep_code == "2A" || r.dep_code == "2B") = true)
    (hnomatch : ∀ a ∈ areas2, a.code_dep ≠ r.dep_code) :
    (⟨r.dep_code, r.registered, r.abstentions, r.nulls, r.choiceA, r.choiceB,
      r.dep_code, none, none, none⟩ : RefAreaRow) ∈ out := by
  have hbig := @merge_referendum_and_areas_some referendum areas areas2 ht
  rw [hout] at hbig
  injection hbig with hbig
  subst hbig
  have hr1 : ({ r with code_dep := some r.dep_code } : RefRow)
      ∈ (referendum.map (fun x => { x with code_dep := some x.dep_code })).filter refKeep :=
    List.mem_filter.mpr ⟨List.mem_map.mpr ⟨r, hr, rfl⟩, by rw [refKeep_written]; exact hkeep⟩
  have hnull := @refAreaRows_of_no_match areas2 { r with code_dep := some r.dep_code } hnomatch
  refine List.mem_flatMap.mpr ⟨_, hr1, ?_⟩
  rw [hnull]
  exact List.mem_singleton.mpr rfl

/-! ## The claims -/

/-- **C1** (counterexample).  "For every pair of input tables the output
of `merge_regions_and_departments` has exactly as many rows as the
departments input" is false: the merge of lines 41-45 is `how='left'`
with the REGIONS table on the left, so with one region and an empty
departments table it still emits one (NaN-department) row per region. -/
theorem C1_counterexample :
    ((merge_regions_and_departments regionsOne departmentsEmpty).2.2).length ≠
      departmentsEmpty.rows.length := by decide

/-- **C1** (amended).  The output of `merge_regions_and_departments` has
exactly one row per department row provided the region codes are
pairwise distinct, every department's region code occurs among them, and
every region owns at least one department; without these conditions the
left join (regions side left) drops unmatched departments and adds a row
for each department-less region. -/
theorem C1_row_count (regions departments : RawFrame)
    (hnd : (regions.rows.map (fun row => row.getD 1 "")).Nodup)
    (hcov : ∀ row ∈ departments.rows,
      row.getD 1 "" ∈ regions.rows.map (fun row2 => row2.getD 1 ""))
    (hne : ∀ c ∈ regions.rows.map (fun row => row.getD 1 ""),
      ∃ row ∈ departments.rows, row.getD 1 "" = c) :
    ((merge_regions_and_departments regions departments).2.2).length =
      departments.rows.length := by
  have h1 := length_mergeRegDep
    (regions.rows.map (fun row => (row.getD 1 "", row.getD 2 "")))
    (departments.rows.map (fun row => (row.getD 1 "", row.getD 2 "", row.getD 3 "")))
    (by rw [List.map_map]; exact hnd)
    (by
      intro d hd
      obtain ⟨row, hrow, rfl⟩ := List.mem_map.mp hd
      rw [List.map_map]
      exact hcov row hrow)
    (by
      intro rg hrg
      obtain ⟨row, hrow, rfl⟩ := List.mem_map.mp hrg
      obtain ⟨drow, hdrow, hdk⟩ := hne (row.getD 1 "") (List.mem_map.mpr ⟨row, hrow, rfl⟩)
      exact ⟨(drow.getD 1 "", drow.getD 2 "", drow.getD 3 ""),
        List.mem_map.mpr ⟨drow, hdrow, rfl⟩, hdk⟩)
  rw [merge_regions_and_departments_eq]
  show (mergeRegDep _ _).length = _
  rw [h1, List.length_map]

/-- **C1** (witness): one region owning one department, row counts 1 = 1. -/
theorem C1_row_count_witness :
    ((merge_regions_and_departments regionsOne departmentsOne).2.2).length =
      departmentsOne.rows.length :=
  C1_row_count regionsOne departmentsOne (by decide) (by decide) (by decide)

/-- **C2** (code bug).  At a two-department single-region input the vote
sums are the correct per-region totals, but the returned table is NOT
indexed by region code: the `reset_index()` of line 96 leaves the default
positional index and the selection of lines 99-100 drops `code_reg`, so
no region-code information remains — contradicting the function's own
docstring, which promises a frame indexed by `code_reg`. -/
theorem C2_reset_index_bug :
    compute_referendum_result_by_regions refAreaRowsW =
      [{ name_reg := "Auvergne-Rhone-Alpes", registered := 100, abstentions := 10,
         nulls := 2, choiceA := 50, choiceB := 38 }] ∧
    "code_reg" ∉ resultColumns := by decide

/-- **C3** (counterexample).  "Every row whose department code is
string-numeric and numerically `≥ 100` is excluded from the output of
`merge_referendum_and_areas`" is false: the `< 100` filter of line 72
applies only to the area table, while the referendum row for department
971 passes the numeric filter of lines 59-60 and survives the left join
unmatched. -/
theorem C3_counterexample :
    (merge_referendum_and_areas [refRow971] []).2 = some [outRow971] ∧
    pyInt outRow971.code_dep = some 971 ∧ ¬((971 : ℤ) < 100) := by decide

/-- **C3** (amended).  Numeric codes `≥ 100` are excluded from the AREA
side of the join — every surviving area row parses below 100 — while a
referendum row with such a code is not excluded: it remains in the
output with null region fields. -/
theorem C3_overseas_filter (referendum : List RefRow) (areas areas2 : List AreaRow)
    (out : List RefAreaRow)
    (ht : transformAreas areas = some areas2)
    (hout : (merge_referendum_and_areas referendum areas).2 = some out) :
    (∀ b ∈ areas2, b.code_dep ≠ "2A" → b.code_dep ≠ "2B" →
      ∃ n : ℤ, pyInt b.code_dep = some n ∧ n < 100) ∧
    (∀ r ∈ referendum, ∀ k : ℤ, pyIsNumeric r.dep_code = true →
      pyInt r.dep_code = some k → 100 ≤ k →
      (⟨r.dep_code, r.registered, r.abstentions, r.nulls, r.choiceA, r.choiceB,
        r.dep_code, none, none, none⟩ : RefAreaRow) ∈ out) := by
  constructor
  · intro b hb h2a h2b
    rcases transformAreas_codes ht hb with h | h | ⟨n, hn, hcode⟩
    · exact absurd h h2a
    · exact absurd h h2b
    · exact ⟨n, by rw [hcode, pyInt_pyStr], hn⟩
  · intro r hr k hnum hparse hk
    obtain ⟨hne2A, hne2B⟩ := pyIsNumeric_ne_corsica hnum
    refine mraa_unmatched_row ht hout hr (by simp [hnum]) ?_
    intro a ha he
    rcases transformAreas_codes ht ha with h | h | ⟨n, hn, hcode⟩
    · exact hne2A (by rw [← he]; exact h)
    · exact hne2B (by rw [← he]; exact h)
    · rw [he] at hcode
      rw [hcode, pyInt_pyStr] at hparse
      injection hparse with hparse
      omega

/-- **C3** (witness): with the transformed area table of `areasW`, the
surviving mainland code parses below 100, and the 971 referendum row is
present in the output with null region fields. -/
theorem C3_overseas_filter_witness :
    (∃ n : ℤ, pyInt "1" = some n ∧ n < 100) ∧
    (⟨"971", 100, 10, 2, 50, 38, "971", none, none, none⟩ : RefAreaRow) ∈ [outRow971] := by
  have h := C3_overseas_filter [refRow971] areasW areasW2 [outRow971] (by decide) (by decide)
  exact ⟨h.1 ⟨"84", "Auvergne-Rhone-Alpes", "1", "Ain"⟩ (by decide) (by decide) (by decide),
    h.2 refRow971 (by decide) 971 (by decide) (by decide) (by decide)⟩

/-- **C4** (confirmed).  In the non-Corsica partition every area-table
code `"01"`..`"09"` is rewritten by the `int`/`str` round trip of lines
73-74 to its zero-stripped form `"1"`..`"9"`, and the Corsica rows
`"2A"`/`"2B"` pass through unchanged. -/
theorem C4_zero_strip (areas out : List AreaRow) (a : AreaRow) (s : String)
    (ht : transformAreas areas = some out) (ha : a ∈ areas) :
    ((a.code_dep, s) ∈ [("01", "1"), ("02", "2"), ("03", "3"), ("04", "4"),
        ("05", "5"), ("06", "6"), ("07", "7"), ("08", "8"), ("09", "9")] →
      { a with code_dep := s } ∈ out) ∧
    (a.code_dep = "2A" ∨ a.code_dep = "2B" → a ∈ out) := by
  constructor
  · intro hcs
    have step : ∀ n : ℤ, isCorsica a = false → pyInt a.code_dep = some n → n < 100 →
        pyStr n = s → { a with code_dep := s } ∈ out := by
      intro n hnc hp hlt hs
      rw [← hs]
      exact transformAreas_mem_reformat ht ha hnc hp hlt
    simp only [List.mem_cons, List.mem_singleton, Prod.mk.injEq] at hcs
    rcases hcs with ⟨h1, h2⟩ | ⟨h1, h2⟩ | ⟨h1, h2⟩ | ⟨h1, h2⟩ | ⟨h1, h2⟩ | ⟨h1, h2⟩ |
      ⟨h1, h2⟩ | ⟨h1, h2⟩ | ⟨h1, h2⟩ | h0
    · exact step 1 (by unfold isCorsica; rw [h1]; decide) (by rw [h1]; decide)
        (by decide) (by rw [h2]; decide)
    · exact step 2 (by unfold isCorsica; rw [h1]; decide) (by rw [h1]; decide)
        (by decide) (by rw [h2]; decide)
    · exact step 3 (by unfold isCorsica; rw [h1]; decide) (by rw [h1]; decide)
        (by decide) (by rw [h2]; decide)
    · exact step 4 (by unfold isCorsica; rw [h1]; decide) (by rw [h1]; decide)
        (by decide) (by rw [h2]; decide)
    · exact step 5 (by unfold isCorsica; rw [h1]; decide) (by rw [h1]; decide)
        (by decide) (by rw [h2]; decide)
    · exact step 6 (by unfold isCorsica; rw [h1]; decide) (by rw [h1]; decide)
        (by decide) (by rw [h2]; decide)
    · exact step 7 (by unfold isCorsica; rw [h1]; decide) (by rw [h1]; decide)
        (by decide) (by rw [h2]; decide)
    · exact step 8 (by unfold isCorsica; rw [h1]; decide) (by rw [h1]; decide)
        (by decide) (by rw [h2]; decide)
    · exact step 9 (by unfold isCorsica; rw [h1]; decide) (by rw [h1]; decide)
        (by decide) (by rw [h2]; decide)
    · exact absurd h0 (List.not_mem_nil _)
  · intro hc
    refine transformAreas_mem_corsica ht ha ?_
    unfold isCorsica
    rcases hc with h | h <;> rw [h] <;> decide

/-- **C4** (witness): in `areasW` the Ain row's code `"01"` comes out as
`"1"` and the Corsica row is unchanged. -/
theorem C4_zero_strip_witness :
    ({ code_reg := "84", name_reg := "Auvergne-Rhone-Alpes", code_dep := "1",
       name_dep := "Ain" } : AreaRow) ∈ areasW2 ∧ areaRow2A ∈ areasW2 := by
  have h1 := C4_zero_strip areasW areasW2 areaRow01 "1" (by decide) (by decide)
  have h2 := C4_zero_strip areasW areasW2 areaRow2A "x" (by decide) (by decide)
  exact ⟨h1.1 (by decide), h2.2 (Or.inl (by decide))⟩

/-- **C5** (confirmed).  The merge keeps exactly the referendum rows
whose department code is purely numeric or one of the Corsica codes:
every output row descends from such a row (so filtered-out rows leave no
trace), and every such row contributes at least one output row carrying
its fields (left join). -/
theorem C5_numeric_filter (referendum : List RefRow) (areas areas2 : List AreaRow)
    (out : List RefAreaRow)
    (ht : transformAreas areas = some areas2)
    (hout : (merge_referendum_and_areas referendum areas).2 = some out) :
    (∀ p ∈ out, pyIsNumeric p.dep_code = true ∨ p.dep_code = "2A" ∨ p.dep_code = "2B") ∧
    (∀ r ∈ referendum,
      pyIsNumeric r.dep_code = true ∨ r.dep_code = "2A" ∨ r.dep_code = "2B" →
      ∃ p ∈ out, p.dep_code = r.dep_code ∧ p.registered = r.registered ∧
        p.abstentions = r.abstentions ∧ p.nulls = r.nulls ∧
        p.choiceA = r.choiceA ∧ p.choiceB = r.choiceB) := by
  constructor
  · intro p hp
    obtain ⟨r, hr, hkeep, hdep, _⟩ := mraa_out_elim ht hout hp
    rw [hdep]
    simp only [Bool.or_eq_true, beq_iff_eq] at hkeep
    tauto
  · intro r hr hpred
    refine mraa_kept_row ht hout hr ?_
    simp only [Bool.or_eq_true, beq_iff_eq]
    tauto

/-- **C5** (witness): the Corsica row is kept with its fields while the
`"ZZ"` row leaves the output as computed in `outW5`. -/
theorem C5_numeric_filter_witness :
    (pyIsNumeric "2A" = true ∨ ("2A" : String) = "2A" ∨ ("2A" : String) = "2B") ∧
    (∃ p ∈ outW5, p.dep_code = "2A" ∧ p.registered = 40 ∧ p.abstentions = 4 ∧
      p.nulls = 1 ∧ p.choiceA = 20 ∧ p.choiceB = 18) := by
  have h := C5_numeric_filter [refRow1, refRow2A, refRowZZ] areasW areasW2 outW5
    (by decide) (by decide)
  exact ⟨h.1 ⟨"2A", 40, 4, 1, 20, 18, "2A", some "94", some "Corse", some "Corse-du-Sud"⟩
      (by decide),
    h.2 refRow2A (by decide) (Or.inr (Or.inl rfl))⟩

/-- **C6** (confirmed).  Every `to_plot` row's ratio equals
Choice A / (Choice A + Choice B) under numpy division, and for
non-negative vote counts a zero denominator forces `0 / 0`, i.e. NaN —
the embedded division is total, so no error can be raised. -/
theorem C6_ratio (res : List ResultRow) (geo : List GeoRow)
    (hnn : ∀ r ∈ res, 0 ≤ r.choiceA ∧ 0 ≤ r.choiceB) :
    ∀ p ∈ (plot_referendum_map res geo).2,
      p.ratio = efDiv (p.choiceA : ℚ) ((p.choiceA : ℚ) + (p.choiceB : ℚ)) ∧
      ((p.choiceA : ℚ) + (p.choiceB : ℚ) = 0 → p.ratio = EF.nan) := by
  intro p hp
  obtain ⟨r, hr, g, hg, hnom, rfl⟩ := plot_mem_elim hp
  obtain ⟨hA, hB⟩ := hnn r hr
  constructor
  · rfl
  · intro hz
    have hz2 : (r.choiceA : ℚ) + (r.choiceB : ℚ) = 0 := hz
    have hA2 : (0 : ℚ) ≤ (r.choiceA : ℚ) := by exact_mod_cast hA
    have hB2 : (0 : ℚ) ≤ (r.choiceB : ℚ) := by exact_mod_cast hB
    have hA0 : (r.choiceA : ℚ) = 0 := by linarith
    show efDiv (r.choiceA : ℚ) ((r.choiceA : ℚ) + (r.choiceB : ℚ)) = EF.nan
    rw [hA0] at hz2 ⊢
    rw [hz2]
    simp [efDiv]

/-- **C6** (witness): a region with zero expressed ballots gets ratio
NaN, not an exception. -/
theorem C6_ratio_witness :
    plotRowZero.ratio = efDiv (plotRowZero.choiceA : ℚ)
      ((plotRowZero.choiceA : ℚ) + (plotRowZero.choiceB : ℚ)) ∧
    ((plotRowZero.choiceA : ℚ) + (plotRowZero.choiceB : ℚ) = 0 →
      plotRowZero.ratio = EF.nan) ∧
    plotRowZero.ratio = EF.nan := by
  have h := C6_ratio resRowsZero geoRowsZero (by decide) plotRowZero
    (show plotRowZero ∈ [plotRowZero] from List.mem_singleton.mpr rfl)
  exact ⟨h.1, h.2, h.2 (by simp [plotRowZero, mkPlotRow, assignNomRatio])⟩

/-- **C7** (confirmed).  The geometry merge of lines 121-122 uses the
pandas default inner join: every `to_plot` row's `nom` occurs among the
geometry names, so an aggregated-result row whose region name matches no
geometry name contributes nothing — it is dropped silently, the embedded
merge being total (no error, no warning). -/
theorem C7_inner_join_drop (res : List ResultRow) (geo : List GeoRow) :
    (∀ p ∈ (plot_referendum_map res geo).2, p.nom ∈ geo.map GeoRow.nom) ∧
    (∀ r ∈ res, r.name_reg ∉ geo.map GeoRow.nom →
      ∀ p ∈ (plot_referendum_map res geo).2, p.name_reg ≠ r.name_reg) := by
  constructor
  · intro p hp
    obtain ⟨r, hr, g, hg, hnom, rfl⟩ := plot_mem_elim hp
    exact List.mem_map.mpr ⟨g, hg, rfl⟩
  · intro r hr hnot p hp hne
    obtain ⟨r2, hr2, g, hg, hnom, rfl⟩ := plot_mem_elim hp
    apply hnot
    have h3 : r.name_reg = r2.name_reg := hne.symm
    rw [h3, ← hnom]
    exact List.mem_map.mpr ⟨g, hg, rfl⟩

/-- **C7** (witness): with geometries only for one region, the matched
row is in the output and no output row carries the unmatched name. -/
theorem C7_inner_join_drop_witness :
    plotRowW.nom ∈ geoRowsW.map GeoRow.nom ∧ plotRowW.name_reg ≠ "Nowhere" := by
  have h := C7_inner_join_drop resRowsW geoRowsW
  have hmem : plotRowW ∈ (plot_referendum_map resRowsW geoRowsW).2 :=
    show plotRowW ∈ [plotRowW] from List.mem_singleton.mpr rfl
  exact ⟨h.1 plotRowW hmem,
    h.2 ⟨"Nowhere", 10, 1, 0, 0, 0, none, none⟩ (by decide) (by decide) plotRowW hmem⟩

/-- **C8** (counterexample).  "No pipeline stage mutates a table produced
by an earlier stage; each stage leaves its input tables unchanged" is
false: line 39 reassigns the caller's regions column labels, so the
post-state of the argument differs from the input frame. -/
theorem C8_counterexample :
    (merge_regions_and_departments regionsOne departmentsEmpty).1 ≠ regionsOne := by
  decide

/-- **C8** (amended).  Three of the four stages mutate caller-supplied
tables in place — `merge_regions_and_departments` overwrites both inputs'
column labels (lines 39-40), `merge_referendum_and_areas` writes a
`code_dep` column into the referendum frame (line 58), and
`plot_referendum_map` writes `nom` and `ratio` columns into its input
(lines 113-120) — so each changes any input whose prior state differs
from what it writes.  Only `compute_referendum_result_by_regions`
assigns nothing into its argument (lines 92-100 build new frames only),
which is why its embedding carries no post-state. -/
theorem C8_mutation (regions departments : RawFrame) (referendum : List RefRow)
    (areas : List AreaRow) (res : List ResultRow) (geo : List GeoRow) :
    (regions.columns ≠ ["id", "code_reg", "name_reg", "slug"] →
      (merge_regions_and_departments regions departments).1 ≠ regions) ∧
    (departments.columns ≠ ["id", "code_reg", "code_dep", "name_dep", "slug"] →
      (merge_regions_and_departments regions departments).2.1 ≠ departments) ∧
    ((∃ r ∈ referendum, r.code_dep ≠ some r.dep_code) →
      (merge_referendum_and_areas referendum areas).1 ≠ referendum) ∧
    ((∃ r ∈ res, r.nom ≠ some r.name_reg) →
      (plot_referendum_map res geo).1 ≠ res) := by
  refine ⟨?_, ?_, ?_, ?_⟩
  · intro hcol he
    have h2 : (merge_regions_and_departments regions departments).1.columns
        = ["id", "code_reg", "name_reg", "slug"] := rfl
    rw [he] at h2
    exact hcol h2
  · intro hcol he
    have h2 : (merge_regions_and_departments regions departments).2.1.columns
        = ["id", "code_reg", "code_dep", "name_dep", "slug"] := rfl
    rw [he] at h2
    exact hcol h2
  · intro hex he
    obtain ⟨r, hr, hrne⟩ := hex
    rw [merge_referendum_and_areas_post] at he
    exact map_ne_self_of_mem hr
      (fun hfx => hrne (congrArg RefRow.code_dep hfx).symm) he
  · intro hex he
    obtain ⟨r, hr, hrne⟩ := hex
    have he2 : res.map assignNomRatio = res := he
    exact map_ne_self_of_mem hr
      (fun hfx => hrne (congrArg ResultRow.nom hfx).symm) he2

/-- **C8** (witness): each mutating stage applied to a frame in its
pre-pipeline state changes it. -/
theorem C8_mutation_witness :
    (merge_regions_and_departments regionsOne departmentsOne).1 ≠ regionsOne ∧
    (merge_regions_and_departments regionsOne departmentsOne).2.1 ≠ departmentsOne ∧
    (merge_referendum_and_areas [refRow971] areasW).1 ≠ [refRow971] ∧
    (plot_referendum_map resRowsW geoRowsW).1 ≠ resRowsW := by
  have h := C8_mutation regionsOne departmentsOne [refRow971] areasW resRowsW geoRowsW
  exact ⟨h.1 (by decide), h.2.1 (by decide), h.2.2.1 (by decide), h.2.2.2 (by decide)⟩

/-- **C9** (confirmed).  `merge_regions_and_departments` overwrites the
column labels of both caller frames in place (rows untouched), and
`merge_referendum_and_areas` writes a `code_dep` column equal to the
`Department code` column into the caller's referendum frame (same length,
same department codes); whenever the prior values differ from what is
written, the caller's objects are changed. -/
theorem C9_side_effects (regions departments : RawFrame) (referendum : List RefRow)
    (areas : List AreaRow) :
    (merge_regions_and_departments regions departments).1.columns
        = ["id", "code_reg", "name_reg", "slug"] ∧
    (merge_regions_and_departments regions departments).1.rows = regions.rows ∧
    (merge_regions_and_departments regions departments).2.1.columns
        = ["id", "code_reg", "code_dep", "name_dep", "slug"] ∧
    (merge_regions_and_departments regions departments).2.1.rows = departments.rows ∧
    (∀ x ∈ (merge_referendum_and_areas referendum areas).1, x.code_dep = some x.dep_code) ∧
    ((merge_referendum_and_areas referendum areas).1.length = referendum.length) ∧
    ((merge_referendum_and_areas referendum areas).1.map RefRow.dep_code
        = referendum.map RefRow.dep_code) ∧
    (regions.columns ≠ ["id", "code_reg", "name_reg", "slug"] →
      (merge_regions_and_departments regions departments).1 ≠ regions) ∧
    ((∃ r ∈ referendum, r.code_dep ≠ some r.dep_code) →
      (merge_referendum_and_areas referendum areas).1 ≠ referendum) := by
  refine ⟨rfl, rfl, rfl, rfl, ?_, ?_, ?_, ?_, ?_⟩
  · intro x hx
    rw [merge_referendum_and_areas_post] at hx
    obtain ⟨r, _, rfl⟩ := List.mem_map.mp hx
    rfl
  · rw [merge_referendum_and_areas_post, List.length_map]
  · rw [merge_referendum_and_areas_post, List.map_map]
    rfl
  · intro hcol he
    have h2 : (merge_regions_and_departments regions departments).1.columns
        = ["id", "code_reg", "name_reg", "slug"] := rfl
    rw [he] at h2
    exact hcol h2
  · intro hex he
    obtain ⟨r, hr, hrne⟩ := hex
    rw [merge_referendum_and_areas_post] at he
    exact map_ne_self_of_mem hr
      (fun hfx => hrne (congrArg RefRow.code_dep hfx).symm) he

/-- **C9** (witness): concrete frames in their CSV state are changed by
the calls. -/
theorem C9_side_effects_witness :
    (merge_regions_and_departments regionsOne departmentsEmpty).1 ≠ regionsOne ∧
    (merge_referendum_and_areas [refRow01] areasW).1 ≠ [refRow01] := by
  have h := C9_side_effects regionsOne departmentsEmpty [refRow01] areasW
  exact ⟨h.2.2.2.2.2.2.2.1 (by decide), h.2.2.2.2.2.2.2.2 (by decide)⟩

/-- **C10** (confirmed).  A referendum row whose department code is
numeric with a leading zero (e.g. `"01"`) passes the numeric filter of
lines 59-60 unnormalized, while every transformed area code is either a
Corsica code or the zero-free `str(int(...))` image of an integer, so
the row matches nothing and appears in the output with null region
fields. -/
theorem C10_leading_zero_null (referendum : List RefRow) (areas areas2 : List AreaRow)
    (out : List RefAreaRow) (r : RefRow)
    (ht : transformAreas areas = some areas2)
    (hout : (merge_referendum_and_areas referendum areas).2 = some out)
    (hr : r ∈ referendum) (hnum : pyIsNumeric r.dep_code = true)
    (hzero : r.dep_code.data.head? = some '0') (hone : r.dep_code ≠ "0") :
    (⟨r.dep_code, r.registered, r.abstentions, r.nulls, r.choiceA, r.choiceB,
      r.dep_code, none, none, none⟩ : RefAreaRow) ∈ out := by
  obtain ⟨hne2A, hne2B⟩ := pyIsNumeric_ne_corsica hnum
  refine mraa_unmatched_row ht hout hr (by simp [hnum]) ?_
  intro a ha he
  rcases transformAreas_codes ht ha with h | h | ⟨n, _, hcode⟩
  · exact hne2A (by rw [← he]; exact h)
  · exact hne2B (by rw [← he]; exact h)
  · rw [he] at hcode
    exact pyStr_ne_of_leading_zero hzero hone n hcode.symm

/-- **C10** (witness): department `"01"` against an area table that maps
`"01"` to `"1"` — the row survives with null region fields. -/
theorem C10_leading_zero_null_witness :
    (⟨"01", 100, 10, 2, 50, 38, "01", none, none, none⟩ : RefAreaRow) ∈ [outRow01] :=
  C10_leading_zero_null [refRow01] areasW areasW2 [outRow01] refRow01
    (by decide) (by decide) (by decide) (by decide) (by decide) (by decide)

end PandasQuestions
